import Mathlib

/-
Verification of the SimDisplay telemetry packet protocol
(src/Device/UnoR3/ArduinoIDE/SimDisplay/SimDisplayProtocol.h).

The header defines the packet struct, the protocol version string and the
four status constants.  The encode/decode/version operations are the
protocol contract stated by the specification; they are modelled here from
the spec wording (fixed field order, little-endian 16-bit fields, exactly
20 wire bytes, length check only).
-/

/-- Protocol version string, from `#define SIMDISPLAYPROTOCOL_VERSION "1"`. -/
def SIMDISPLAYPROTOCOL_VERSION : String := "1"

/-- The telemetry packet, from `struct SimDisplayPacket`.  Machine unsigned
integers (`uint8_t`, `uint16_t`) are modelled as `Nat`; the declared widths
are recorded by `SimDisplayPacket.wf`. -/
structure SimDisplayPacket where
  status : Nat
  rpm : Nat
  optrpm : Nat
  shftrpm : Nat
  pitlim : Nat
  gear : Nat
  tc : Nat
  tcc : Nat
  tcact : Nat
  abs : Nat
  absact : Nat
  bb : Nat
  remlaps : Nat
  map : Nat
  airt : Nat
  roadt : Nat
  deriving DecidableEq, Repr

/-- Well-typedness: every field fits its declared C width
(`uint8_t` for the 1-byte fields, `uint16_t` for rpm, optrpm, shftrpm, bb). -/
def SimDisplayPacket.wf (p : SimDisplayPacket) : Prop :=
  p.status < 256 ∧ p.rpm < 65536 ∧ p.optrpm < 65536 ∧ p.shftrpm < 65536 ∧
  p.pitlim < 256 ∧ p.gear < 256 ∧ p.tc < 256 ∧ p.tcc < 256 ∧ p.tcact < 256 ∧
  p.abs < 256 ∧ p.absact < 256 ∧ p.bb < 65536 ∧ p.remlaps < 256 ∧
  p.map < 256 ∧ p.airt < 256 ∧ p.roadt < 256

instance (p : SimDisplayPacket) : Decidable p.wf := by
  unfold SimDisplayPacket.wf
  infer_instance

/-- Status constant, from `#define SDP_STATUS_OFF 0`. -/
def SDP_STATUS_OFF : Nat := 0

/-- Status constant, from `#define SDP_STATUS_REPLAY 1`. -/
def SDP_STATUS_REPLAY : Nat := 1

/-- Status constant, from `#define SDP_STATUS_LIVE 2`. -/
def SDP_STATUS_LIVE : Nat := 2

/-- Status constant, from `#define SDP_STATUS_PAUSE 3`. -/
def SDP_STATUS_PAUSE : Nat := 3

/-- Modelled from the spec: the repository header defines only the struct
layout, so the encode operation is taken from the spec wording — serialize
all 16 fields in the fixed declared order, little-endian for the 16-bit
fields, producing exactly 20 bytes, truncating each field to its declared
width. -/
def encode (p : SimDisplayPacket) : List Nat :=
  [p.status % 256,
   p.rpm % 256, p.rpm / 256 % 256,
   p.optrpm % 256, p.optrpm / 256 % 256,
   p.shftrpm % 256, p.shftrpm / 256 % 256,
   p.pitlim % 256, p.gear % 256, p.tc % 256, p.tcc % 256, p.tcact % 256,
   p.abs % 256, p.absact % 256,
   p.bb % 256, p.bb / 256 % 256,
   p.remlaps % 256, p.map % 256, p.airt % 256, p.roadt % 256]

/-- Decode errors of the codec: the spec names exactly one,
`MalformedPacket`, raised when the input length is not 20. -/
inductive DecodeError where
  | malformedPacket
  deriving DecidableEq, Repr

/-- Modelled from the spec: the repository header defines only the struct
layout, so the decode operation is taken from the spec wording — require
exactly 20 input bytes (otherwise `MalformedPacket`), then read the 16
fields back in the fixed declared order, little-endian for the 16-bit
fields, with no semantic validation of any field. -/
def decode (b : List Nat) : Except DecodeError SimDisplayPacket :=
  if b.length = 20 then
    .ok
      { status := b.getD 0 0,
        rpm := b.getD 1 0 + 256 * b.getD 2 0,
        optrpm := b.getD 3 0 + 256 * b.getD 4 0,
        shftrpm := b.getD 5 0 + 256 * b.getD 6 0,
        pitlim := b.getD 7 0,
        gear := b.getD 8 0,
        tc := b.getD 9 0,
        tcc := b.getD 10 0,
        tcact := b.getD 11 0,
        abs := b.getD 12 0,
        absact := b.getD 13 0,
        bb := b.getD 14 0 + 256 * b.getD 15 0,
        remlaps := b.getD 16 0,
        map := b.getD 17 0,
        airt := b.getD 18 0,
        roadt := b.getD 19 0 }
  else .error .malformedPacket

/-- Modelled from the spec: `version()` returns the fixed protocol version
tag, the constant the header defines. -/
def version (_ : Unit) : String := SIMDISPLAYPROTOCOL_VERSION

/-- Example packet of the spec scenario in section 8. -/
def examplePacket : SimDisplayPacket :=
  { status := 2, rpm := 6500, optrpm := 7000, shftrpm := 7200, pitlim := 0,
    gear := 4, tc := 3, tcc := 2, tcact := 0, abs := 4, absact := 1,
    bb := 5600, remlaps := 12, map := 3, airt := 28, roadt := 34 }

/-- C1: for every valid packet value P (all 16 fields within their declared
unsigned widths and status in range 0..3), decoding the byte sequence
produced by encoding P yields a packet equal to P field by field. -/
theorem decode_encode_roundtrip (p : SimDisplayPacket) (hwf : p.wf)
    (hs : p.status < 4) : decode (encode p) = .ok p := by
  obtain ⟨s, r, o, sh, pl, g, tc, tcc, ta, ab, aa, bb, rl, mp, at1, rt⟩ := p
  obtain ⟨h1, h2, h3, h4, h5, h6, h7, h8, h9, h10, h11, h12, h13, h14, h15, h16⟩ := hwf
  simp only [decode, encode, List.length_cons, List.length_nil, if_pos,
    List.getD_cons_zero, List.getD_cons_succ,
    Except.ok.injEq, SimDisplayPacket.mk.injEq]
  simp_all only [SimDisplayPacket.wf]
  omega

/-- C1 witness: the round trip evaluated at the concrete example packet of
the spec scenario. -/
theorem decode_encode_roundtrip_witness :
    examplePacket.wf ∧ examplePacket.status < 4 ∧
      decode (encode examplePacket) = .ok examplePacket :=
  ⟨by decide, by decide, decode_encode_roundtrip examplePacket (by decide) (by decide)⟩

/-- C2: for every packet value P (in particular every valid one), the byte
sequence encode(P) has length exactly 20, the sum of the declared field
widths, with no padding bytes. -/
theorem encode_length (p : SimDisplayPacket) : (encode p).length = 20 := rfl

/-- C3: decode returns MalformedPacket exactly when the input length is not
20 (returning no packet value at all), and on any input of length exactly
20 it succeeds. -/
theorem decode_malformed_iff (b : List Nat) :
    (decode b = .error .malformedPacket ↔ b.length ≠ 20) ∧
      (b.length = 20 → ∃ p, decode b = .ok p) := by
  constructor
  · unfold decode
    split <;> simp_all
  · intro h
    unfold decode
    rw [if_pos h]
    exact ⟨_, rfl⟩

/-- C3 witness: evaluated at a concrete 20-byte input and the criterion at
that input. -/
theorem decode_malformed_iff_witness :
    ((decode (List.replicate 20 5) = .error .malformedPacket ↔
        (List.replicate 20 5).length ≠ 20) ∧
      ((List.replicate 20 5).length = 20 →
        ∃ p, decode (List.replicate 20 5) = .ok p)) ∧
      (List.replicate 20 5).length = 20 :=
  ⟨decode_malformed_iff (List.replicate 20 5), by decide⟩

/-- C4: decode performs no semantic validation of the status field; every
20-byte input decodes successfully, whatever its status byte is. -/
theorem decode_no_status_validation (b : List Nat) (h : b.length = 20) :
    ∃ p, decode b = .ok p := by
  unfold decode
  rw [if_pos h]
  exact ⟨_, rfl⟩

/-- C4 witness: a 20-byte input whose status byte 200 lies outside the
enumerated set still decodes successfully. -/
theorem decode_no_status_validation_witness :
    (200 :: List.replicate 19 0).length = 20 ∧
      ∃ p, decode (200 :: List.replicate 19 0) = .ok p :=
  ⟨by decide, decode_no_status_validation (200 :: List.replicate 19 0) (by decide)⟩

/-- C5: the four status constants have values OFF=0, REPLAY=1, LIVE=2,
PAUSE=3, are pairwise distinct, and a packet whose status field is 2
decodes (after encoding) to a packet whose status field equals LIVE. -/
theorem status_constants_spec :
    SDP_STATUS_OFF = 0 ∧ SDP_STATUS_REPLAY = 1 ∧ SDP_STATUS_LIVE = 2 ∧
      SDP_STATUS_PAUSE = 3 ∧
      SDP_STATUS_OFF ≠ SDP_STATUS_REPLAY ∧ SDP_STATUS_OFF ≠ SDP_STATUS_LIVE ∧
      SDP_STATUS_OFF ≠ SDP_STATUS_PAUSE ∧ SDP_STATUS_REPLAY ≠ SDP_STATUS_LIVE ∧
      SDP_STATUS_REPLAY ≠ SDP_STATUS_PAUSE ∧ SDP_STATUS_LIVE ≠ SDP_STATUS_PAUSE ∧
      ∀ p : SimDisplayPacket, p.status = 2 →
        ∃ q, decode (encode p) = .ok q ∧ q.status = SDP_STATUS_LIVE := by
  refine ⟨rfl, rfl, rfl, rfl, by decide, by decide, by decide, by decide,
    by decide, by decide, ?_⟩
  intro p hp
  refine ⟨_, rfl, ?_⟩
  show p.status % 256 = SDP_STATUS_LIVE
  rw [hp]
  decide

/-- C5 witness: the status read-back applied at the concrete example packet
whose status is 2. -/
theorem status_constants_spec_witness :
    examplePacket.status = 2 ∧
      ∃ q, decode (encode examplePacket) = .ok q ∧ q.status = SDP_STATUS_LIVE :=
  ⟨by decide, status_constants_spec.2.2.2.2.2.2.2.2.2.2 examplePacket (by decide)⟩

/-- C6: `version()` returns the fixed single-character string "1", and the
returned value is the same on every call. -/
theorem version_constant :
    version () = "1" ∧ ∀ u v : Unit, version u = version v :=
  ⟨rfl, fun _ _ => rfl⟩

/-- C7: encode is total on well-typed packets; it always returns a byte
sequence (every element is a byte below 256) and has no error branch. -/
theorem encode_total (p : SimDisplayPacket) :
    ∃ bs : List Nat, encode p = bs ∧ ∀ x ∈ bs, x < 256 := by
  refine ⟨encode p, rfl, ?_⟩
  simp only [encode, List.mem_cons, List.not_mem_nil, or_false]
  intro x hx
  rcases hx with h | h | h | h | h | h | h | h | h | h |
    h | h | h | h | h | h | h | h | h | h <;> subst h <;> omega

/-- C8: encode and decode are deterministic pure functions — their results
depend only on their arguments, so equal inputs give identical outputs. -/
theorem codec_deterministic (p q : SimDisplayPacket) (hpq : p = q)
    (b c : List Nat) (hbc : b = c) :
    encode p = encode q ∧ decode b = decode c :=
  ⟨congrArg encode hpq, congrArg decode hbc⟩

/-- C8 witness: determinism evaluated at concrete equal inputs. -/
theorem codec_deterministic_witness :
    examplePacket = examplePacket ∧ ([] : List Nat) = [] ∧
      encode examplePacket = encode examplePacket ∧
        decode ([] : List Nat) = decode [] :=
  ⟨rfl, rfl, codec_deterministic examplePacket examplePacket rfl [] [] rfl⟩

/-- C9: inverse round trip — for every byte sequence of length exactly 20
(each element a byte below 256), decoding succeeds and re-encoding the
decoded packet reproduces the input exactly. -/
theorem encode_decode_roundtrip (b : List Nat) (hlen : b.length = 20)
    (hbytes : ∀ x ∈ b, x < 256) :
    ∃ p, decode b = .ok p ∧ encode p = b := by
  rcases b with _ | ⟨x0, _ | ⟨x1, _ | ⟨x2, _ | ⟨x3, _ | ⟨x4, _ | ⟨x5,
    _ | ⟨x6, _ | ⟨x7, _ | ⟨x8, _ | ⟨x9, _ | ⟨x10, _ | ⟨x11, _ | ⟨x12,
    _ | ⟨x13, _ | ⟨x14, _ | ⟨x15, _ | ⟨x16, _ | ⟨x17, _ | ⟨x18,
    _ | ⟨x19, rest⟩⟩⟩⟩⟩⟩⟩⟩⟩⟩⟩⟩⟩⟩⟩⟩⟩⟩⟩⟩ <;>
    simp only [List.length_cons, List.length_nil] at hlen <;> try omega
  have hrest : rest = [] := by
    have := List.length_eq_zero.mp (by omega : rest.length = 0)
    exact this
  subst hrest
  simp only [List.mem_cons, List.not_mem_nil, or_false, forall_eq_or_imp,
    forall_eq] at hbytes
  obtain ⟨b0, b1, b2, b3, b4, b5, b6, b7, b8, b9, b10, b11, b12, b13, b14,
    b15, b16, b17, b18, b19⟩ := hbytes
  refine ⟨_, rfl, ?_⟩
  simp only [encode, decode, List.getD_cons_zero, List.getD_cons_succ,
    List.cons.injEq, and_true]
  refine ⟨?_, ?_, ?_, ?_, ?_, ?_, ?_, ?_, ?_, ?_, ?_, ?_, ?_, ?_, ?_, ?_,
    ?_, ?_, ?_, ?_⟩ <;> omega

/-- C9 witness: the inverse round trip evaluated at a concrete 20-byte
sequence. -/
theorem encode_decode_roundtrip_witness :
    (List.replicate 20 7).length = 20 ∧ (∀ x ∈ List.replicate 20 7, x < 256) ∧
      ∃ p, decode (List.replicate 20 7) = .ok p ∧
        encode p = List.replicate 20 7 :=
  ⟨by decide, by decide,
    encode_decode_roundtrip (List.replicate 20 7) (by decide) (by decide)⟩

/-- C10: the status field survives a round trip unchanged for every byte
value 0..255, including values outside the enumerated set 0..3. -/
theorem status_roundtrip_any (p : SimDisplayPacket) (h : p.status < 256) :
    ∃ q, decode (encode p) = .ok q ∧ q.status = p.status := by
  refine ⟨_, rfl, ?_⟩
  show p.status % 256 = p.status
  omega

/-- C10 witness: a packet whose status is 255 (outside the enumerated set)
keeps that status across the round trip. -/
theorem status_roundtrip_any_witness :
    ({ examplePacket with status := 255 } : SimDisplayPacket).status < 256 ∧
      ∃ q, decode (encode { examplePacket with status := 255 }) = .ok q ∧
        q.status = ({ examplePacket with status := 255 } : SimDisplayPacket).status :=
  ⟨by decide, status_roundtrip_any { examplePacket with status := 255 } (by decide)⟩
